import Mathlib

/-!
Shallow embedding of the WebSocket connection-management core of
`src/app/routes/websocket.py` (class `ConnectionManager`, the per-session
metrics pump `send_metrics_updates` / `get_live_metrics`, and the milestone
block of `monitor_business_metrics`).

Modelling decisions, each traceable to the Python source:
* Python `dict` (insertion-ordered, unique keys) is an association list
  `List (String × α)`; assignment `d[k] = v` is `aset` (replace in place, or
  append a new key at the end), `del d[k]` is `aerase`, `k in d` is
  `(alookup l k).isSome`.
* Python `set` of client ids is a duplicate-free `List String`; `s.add x` is
  `sadd` (append if absent), `s.discard x` is `sdiscard` (filter out).
* `self.subscriptions` is a `defaultdict(set)`: indexing with `[]` creates an
  empty bucket for a missing key (so `subscribe` AND `unsubscribe` both create
  the key), while the containment test `message_type in self.subscriptions`
  used by `broadcast` does not create it.
* A WebSocket transport handle is a `Nat`; whether `send_json` raises for a
  given client is an oracle `fails : String → Bool` supplied to the send
  functions (the `try/except` around each send is modelled by branching on
  that oracle, so a failing send never escapes: the Lean functions are total).
* Deliveries are made observable: the send functions return, next to the new
  state, the list of client ids (or messages) successfully delivered.
* Timestamps (`datetime.utcnow()`) are `Nat` parameters; `connected_at` and
  `last_ping` are set to the same instant on connect and collapsed to one
  field.
-/

namespace Websocket

abbrev ClientId := String
abbrev Topic := String

/-- Association-list lookup, the embedding of Python `d[k]` / `d.get(k)`. -/
def alookup {α : Type} : List (String × α) → String → Option α
  | [], _ => none
  | (k', v) :: rest, k => if k' = k then some v else alookup rest k

/-- Association-list assignment, the embedding of Python `d[k] = v`:
replaces the value of an existing key in place, otherwise appends the new
key at the end (Python dicts are insertion ordered). -/
def aset {α : Type} : List (String × α) → String → α → List (String × α)
  | [], k, v => [(k, v)]
  | (k', v') :: rest, k, v =>
      if k' = k then (k, v) :: rest else (k', v') :: aset rest k v

/-- Association-list deletion, the embedding of Python `del d[k]`. -/
def aerase {α : Type} (l : List (String × α)) (k : String) : List (String × α) :=
  l.filter (fun p => decide (p.1 ≠ k))

/-- Python `set.add`: append if absent (our sets are duplicate-free lists). -/
def sadd (s : List String) (x : String) : List String :=
  if x ∈ s then s else s ++ [x]

/-- Python `set.discard`: remove, no error when absent. -/
def sdiscard (s : List String) (x : String) : List String :=
  s.filter (fun y => decide (y ≠ x))

/-- The state of `ConnectionManager` (`websocket.py` lines 19-28):
`active_connections : Dict[str, WebSocket]`,
`subscriptions : Dict[str, Set[str]]` (a `defaultdict(set)`),
`connection_metadata : Dict[str, Dict]` (collapsed to the connect instant). -/
structure ConnectionManager where
  active_connections : List (ClientId × Nat)
  subscriptions : List (Topic × List ClientId)
  connection_metadata : List (ClientId × Nat)
  deriving Repr, DecidableEq

/-- `ConnectionManager.__init__`: all three maps empty. -/
def ConnectionManager.empty : ConnectionManager := ⟨[], [], []⟩

/-- `ConnectionManager.connect` (lines 30-38): unconditional dict assignment
of the websocket and fresh metadata under `client_id` — there is no duplicate
check, an existing entry is silently overwritten. -/
def ConnectionManager.connect (m : ConnectionManager) (websocket : Nat)
    (client_id : ClientId) (now : Nat) : ConnectionManager :=
  { m with
    active_connections := aset m.active_connections client_id websocket
    connection_metadata := aset m.connection_metadata client_id now }

/-- `ConnectionManager.disconnect` (lines 40-49): when `client_id` is an
active connection, delete it, discard it from every existing subscription
bucket, and delete its metadata; otherwise do nothing. -/
def ConnectionManager.disconnect (m : ConnectionManager)
    (client_id : ClientId) : ConnectionManager :=
  if (alookup m.active_connections client_id).isSome then
    { active_connections := aerase m.active_connections client_id
      subscriptions := m.subscriptions.map (fun p => (p.1, sdiscard p.2 client_id))
      connection_metadata := aerase m.connection_metadata client_id }
  else m

/-- `ConnectionManager.send_personal_message` (lines 51-59): if the client is
active, attempt the send (`fails client_id` says whether `send_json` raises);
on failure the exception is caught and `disconnect` runs. Returns the new
state and whether the message was delivered. An inactive client is a silent
no-op. -/
def ConnectionManager.send_personal_message (fails : ClientId → Bool)
    (m : ConnectionManager) (client_id : ClientId) : ConnectionManager × Bool :=
  if (alookup m.active_connections client_id).isSome then
    if fails client_id then (m.disconnect client_id, false) else (m, true)
  else (m, false)

/-- Recipient resolution inside `broadcast` (lines 63-68): with a truthy
`message_type` that is a key of `subscriptions`, the bucket; otherwise all
active client ids. Python truthiness makes the empty-string topic fall
through to the all-clients branch. -/
def broadcastRecipients (m : ConnectionManager)
    (message_type : Option Topic) : List ClientId :=
  match message_type with
  | some t =>
      if t ≠ "" then
        match alookup m.subscriptions t with
        | some bucket => bucket
        | none => m.active_connections.map Prod.fst
      else m.active_connections.map Prod.fst
  | none => m.active_connections.map Prod.fst

/-- The fan-out loop of `broadcast` (lines 70-78): for each recipient still in
`active_connections`, try the send; a failing send is caught and the client
recorded in `disconnected_clients`. Returns (delivered, disconnected), each
in iteration order. No disconnect happens during the loop, so membership is
checked against the pre-loop `active_connections`. -/
def sendLoop (fails : ClientId → Bool) (active : List (ClientId × Nat)) :
    List ClientId → List ClientId × List ClientId
  | [] => ([], [])
  | cid :: rest =>
      if (alookup active cid).isSome then
        if fails cid then
          let (d, dis) := sendLoop fails active rest
          (d, cid :: dis)
        else
          let (d, dis) := sendLoop fails active rest
          (cid :: d, dis)
      else sendLoop fails active rest

/-- `ConnectionManager.broadcast` (lines 61-82): resolve recipients, fan out,
then `disconnect` every client whose send failed. Returns the new state and
the list of clients the message was delivered to. -/
def ConnectionManager.broadcast (fails : ClientId → Bool) (m : ConnectionManager)
    (message_type : Option Topic) : ConnectionManager × List ClientId :=
  let result := sendLoop fails m.active_connections (broadcastRecipients m message_type)
  (result.2.foldl ConnectionManager.disconnect m, result.1)

/-- One step of `subscribe` (line 87): `self.subscriptions[message_type].add(client_id)`.
The `defaultdict` index creates an empty bucket when the key is missing. -/
def subAdd (subs : List (Topic × List ClientId)) (t : Topic) (cid : ClientId) :
    List (Topic × List ClientId) :=
  aset subs t (sadd ((alookup subs t).getD []) cid)

/-- One step of `unsubscribe` (line 93): `self.subscriptions[message_type].discard(client_id)`.
The `defaultdict` index creates an empty bucket when the key is missing. -/
def subDiscard (subs : List (Topic × List ClientId)) (t : Topic) (cid : ClientId) :
    List (Topic × List ClientId) :=
  aset subs t (sdiscard ((alookup subs t).getD []) cid)

/-- `ConnectionManager.subscribe` (lines 84-88): add the client to each
listed topic's bucket. There is no check that the client is registered. -/
def ConnectionManager.subscribe (m : ConnectionManager) (client_id : ClientId)
    (message_types : List Topic) : ConnectionManager :=
  { m with subscriptions :=
      message_types.foldl (fun s t => subAdd s t client_id) m.subscriptions }

/-- `ConnectionManager.unsubscribe` (lines 90-93): discard the client from
each listed topic's bucket. There is no check that the client is registered. -/
def ConnectionManager.unsubscribe (m : ConnectionManager) (client_id : ClientId)
    (message_types : List Topic) : ConnectionManager :=
  { m with subscriptions :=
      message_types.foldl (fun s t => subDiscard s t client_id) m.subscriptions }

/-- One row of the live-metrics query in `get_live_metrics` (lines 173-189).
The monetary columns are exact decimal SUMs from the store; they are carried
as exact integers here (the claims never exercise fractional cents). -/
structure LiveRow where
  orders_today : Int
  revenue_today : Int
  customers_today : Int
  orders_last_hour : Int
  last_hour_revenue : Int
  deriving Repr, DecidableEq

/-- `get_live_metrics` (lines 170-202): on a successful query, the
seven-entry snapshot dict; any failure is caught inside the function, which
returns the EMPTY dict `{}` — it never raises to its caller. The provider
outcome for the tick is `some row` (success) or `none` (failure). -/
def get_live_metrics : Option LiveRow → List (String × Int)
  | some r =>
      [("ordersToday", r.orders_today),
       ("revenueToday", r.revenue_today),
       ("customersToday", r.customers_today),
       ("ordersLastHour", r.orders_last_hour),
       ("lastHourRevenue", r.last_hour_revenue),
       ("totalRevenue", r.revenue_today),
       ("activeCustomers", r.customers_today)]
  | none => []

/-- Outbound message envelope; the timestamp is irrelevant to the claims and
omitted. -/
structure Msg where
  type : String
  data : List (String × Int)
  deriving Repr, DecidableEq

/-- `send_metrics_updates` (lines 149-168): the per-client pump loop
`while client_id in manager.active_connections`, one iteration per provider
outcome in `ticks` (the sleep bounds the loop; the tick list is the fuel).
Each iteration fetches `get_live_metrics` — which cannot raise — builds a
`metrics` message and sends it with `send_personal_message`. The
`except: break` of the source is unreachable for provider failures because
`get_live_metrics` already swallowed them. Returns the final state and the
messages actually delivered to the client, in order. -/
def send_metrics_updates (fails : ClientId → Bool) :
    List (Option LiveRow) → ConnectionManager → ClientId →
    ConnectionManager × List Msg
  | [], m, _ => (m, [])
  | r :: rest, m, client_id =>
      if (alookup m.active_connections client_id).isSome then
        let msg : Msg := ⟨"metrics", get_live_metrics r⟩
        let sent := m.send_personal_message fails client_id
        let next := send_metrics_updates fails rest sent.1 client_id
        (next.1, (if sent.2 then [msg] else []) ++ next.2)
      else (m, [])

/-- The fixed milestone list of `monitor_business_metrics` (line 268). -/
def milestones : List Int := [25000, 50000, 100000, 250000, 500000]

/-- The milestone block of one `monitor_business_metrics` iteration
(lines 267-275): scan the milestones in order and fire
`broadcast_revenue_milestone` for the first one with
`daily_revenue >= milestone and daily_revenue < milestone * 1.1`, then
`break`; `none` when no milestone is in its 10% window. Revenue is exact
here, so `< milestone * 1.1` is `10 * revenue < 11 * milestone` (the claims'
revenues are integers far from the window boundaries, where the source's
float rounding cannot differ). -/
def monitor_tick (daily_revenue : Int) : Option Int :=
  milestones.find? (fun mlst =>
    decide (mlst ≤ daily_revenue) && decide (10 * daily_revenue < 11 * mlst))

/-- `monitor_business_metrics` (lines 249-294) run over a finite sequence of
per-tick daily revenues: the list of milestone broadcasts fired, in order.
(The churn query of the same loop computes a count that is never broadcast
and is omitted; a failing revenue query skips the tick, which the claims do
not exercise.) -/
def monitor_business_metrics (revenues : List Int) : List Int :=
  revenues.filterMap monitor_tick

/-- The four registry operations, for stating invariants over arbitrary
operation sequences (claim C4's "every sequence of register, unregister,
subscribe and unsubscribe operations"). -/
inductive Op where
  | register (client_id : ClientId) (websocket : Nat) (now : Nat)
  | unregister (client_id : ClientId)
  | subscribe (client_id : ClientId) (topics : List Topic)
  | unsubscribe (client_id : ClientId) (topics : List Topic)
  deriving Repr, DecidableEq

/-- Apply one registry operation. -/
def applyOp (m : ConnectionManager) : Op → ConnectionManager
  | .register cid ws now => m.connect ws cid now
  | .unregister cid => m.disconnect cid
  | .subscribe cid ts => m.subscribe cid ts
  | .unsubscribe cid ts => m.unsubscribe cid ts

/-- Run a sequence of registry operations from a given state. -/
def runOps (m : ConnectionManager) (ops : List Op) : ConnectionManager :=
  ops.foldl applyOp m

/-- Every client id in every subscription bucket is an active connection
(the "no orphaned index entries" half of the spec's consistency invariant). -/
def bucketsRegistered (m : ConnectionManager) : Bool :=
  m.subscriptions.all (fun p =>
    p.2.all (fun cid => (alookup m.active_connections cid).isSome))

/-- Operation sequences whose `subscribe` calls only ever target an id that
is registered at the moment of the call. -/
def subscribesRegistered (m : ConnectionManager) : List Op → Bool
  | [] => true
  | op :: rest =>
      (match op with
       | .subscribe cid _ => (alookup m.active_connections cid).isSome
       | _ => true) && subscribesRegistered (applyOp m op) rest

/-! ### Association-list and set lemmas -/

theorem alookup_aset_self {α : Type} (l : List (String × α)) (k : String) (v : α) :
    alookup (aset l k v) k = some v := by
  induction l with
  | nil => simp [aset, alookup]
  | cons p rest ih =>
      obtain ⟨k', v'⟩ := p
      by_cases h : k' = k
      · simp [aset, h, alookup]
      · simp [aset, h, alookup, ih]

theorem alookup_aset_ne {α : Type} (l : List (String × α)) (k : String) (v : α)
    (j : String) (h : j ≠ k) : alookup (aset l k v) j = alookup l j := by
  induction l with
  | nil => simp [aset, alookup, Ne.symm h]
  | cons p rest ih =>
      obtain ⟨k', v'⟩ := p
      by_cases hk : k' = k
      · subst hk
        simp [aset, alookup, Ne.symm h]
      · simp [aset, hk, alookup, ih]

theorem alookup_aset_isSome {α : Type} (l : List (String × α)) (k : String) (v : α)
    (j : String) (h : (alookup l j).isSome = true) :
    (alookup (aset l k v) j).isSome = true := by
  by_cases hj : j = k
  · subst hj; simp [alookup_aset_self]
  · rwa [alookup_aset_ne l k v j hj]

theorem alookup_aerase_self {α : Type} (l : List (String × α)) (k : String) :
    alookup (aerase l k) k = none := by
  induction l with
  | nil => simp [aerase, alookup]
  | cons p rest ih =>
      obtain ⟨k', v'⟩ := p
      by_cases h : k' = k
      · simpa [aerase, h] using ih
      · simpa [aerase, h, alookup] using ih

theorem alookup_aerase_ne {α : Type} (l : List (String × α)) (k : String)
    (j : String) (h : j ≠ k) : alookup (aerase l k) j = alookup l j := by
  induction l with
  | nil => simp [aerase, alookup]
  | cons p rest ih =>
      obtain ⟨k', v'⟩ := p
      by_cases hk : k' = k
      · subst hk
        simpa [aerase, List.filter_cons, alookup, Ne.symm h] using ih
      · by_cases hj : k' = j
        · subst hj
          simp [aerase, List.filter_cons, hk, alookup]
        · simpa [aerase, List.filter_cons, hk, alookup, hj] using ih

theorem alookup_map_sdiscard (l : List (Topic × List ClientId)) (cid : ClientId)
    (k : Topic) :
    alookup (l.map (fun p => (p.1, sdiscard p.2 cid))) k
      = (alookup l k).map (fun b => sdiscard b cid) := by
  induction l with
  | nil => simp [alookup]
  | cons p rest ih =>
      obtain ⟨k', v'⟩ := p
      by_cases h : k' = k <;> simp [alookup, h, ih]

theorem mem_aset {α : Type} {l : List (String × α)} {k : String} {v : α}
    {p : String × α} (h : p ∈ aset l k v) : p ∈ l ∨ p = (k, v) := by
  induction l with
  | nil => simpa [aset] using h
  | cons q rest ih =>
      obtain ⟨k', v'⟩ := q
      by_cases hk : k' = k
      · simp [aset, hk] at h
        rcases h with h | h
        · right; simpa using h
        · left; simp [h]
      · simp [aset, hk] at h
        rcases h with h | h
        · left; simp [h]
        · rcases ih h with h' | h'
          · left; simp [h']
          · right; exact h'

theorem alookup_mem {α : Type} {l : List (String × α)} {k : String} {v : α}
    (h : alookup l k = some v) : (k, v) ∈ l := by
  induction l with
  | nil => simp [alookup] at h
  | cons p rest ih =>
      obtain ⟨k', v'⟩ := p
      by_cases hk : k' = k
      · simp [alookup, hk] at h
        simp [hk, h]
      · simp [alookup, hk] at h
        simp [ih h]

theorem alookup_isSome_of_mem_keys {α : Type} {l : List (String × α)} {x : String}
    (h : x ∈ l.map Prod.fst) : (alookup l x).isSome = true := by
  induction l with
  | nil => simp at h
  | cons p rest ih =>
      obtain ⟨k', v'⟩ := p
      by_cases hk : k' = x
      · simp [alookup, hk]
      · simp only [List.map_cons, List.mem_cons] at h
        rcases h with h' | h'
        · exact absurd h'.symm hk
        · simp [alookup, hk, ih h']

theorem mem_sadd_self (s : List String) (x : String) : x ∈ sadd s x := by
  by_cases h : x ∈ s <;> simp [sadd, h]

theorem sadd_of_mem {s : List String} {x : String} (h : x ∈ s) : sadd s x = s := by
  simp [sadd, h]

theorem mem_of_mem_sadd {s : List String} {x y : String} (h : y ∈ sadd s x) :
    y ∈ s ∨ y = x := by
  by_cases hx : x ∈ s
  · left; simpa [sadd, hx] using h
  · simpa [sadd, hx] using h

theorem not_mem_sdiscard (s : List String) (x : String) : x ∉ sdiscard s x := by
  simp [sdiscard, List.mem_filter]

theorem mem_of_mem_sdiscard {s : List String} {x y : String}
    (h : y ∈ sdiscard s x) : y ∈ s := (List.mem_filter.mp h).1

theorem ne_of_mem_sdiscard {s : List String} {x y : String}
    (h : y ∈ sdiscard s x) : y ≠ x := by
  have := (List.mem_filter.mp h).2
  simpa using this

theorem sadd_nodup {s : List String} (h : s.Nodup) (x : String) :
    (sadd s x).Nodup := by
  by_cases hx : x ∈ s
  · simpa [sadd, hx] using h
  · simp only [sadd, hx, if_false]
    rw [List.nodup_append]
    refine ⟨h, List.nodup_singleton x, fun a ha hax => ?_⟩
    rw [List.mem_singleton] at hax
    exact hx (hax ▸ ha)

theorem sdiscard_nodup {s : List String} (h : s.Nodup) (x : String) :
    (sdiscard s x).Nodup := List.Nodup.filter _ h

/-! ### Fan-out loop lemmas -/

theorem sendLoop_delivered_mem {fails : ClientId → Bool}
    {active : List (ClientId × Nat)} {l : List ClientId} {x : ClientId}
    (h : x ∈ (sendLoop fails active l).1) :
    x ∈ l ∧ (alookup active x).isSome = true ∧ fails x = false := by
  induction l with
  | nil => simp [sendLoop] at h
  | cons cid rest ih =>
      by_cases hc : (alookup active cid).isSome = true
      · by_cases hf : fails cid = true
        · simp only [sendLoop, hc, if_true, hf] at h
          rcases ih h with ⟨h1, h2, h3⟩
          exact ⟨List.mem_cons_of_mem _ h1, h2, h3⟩
        · simp only [sendLoop, hc, if_true, hf] at h
          simp only [Bool.not_eq_true] at hf
          rw [if_neg (by simp [hf])] at h
          rcases List.mem_cons.mp h with h' | h'
          · subst h'; exact ⟨List.mem_cons_self _ _, hc, hf⟩
          · rcases ih h' with ⟨h1, h2, h3⟩
            exact ⟨List.mem_cons_of_mem _ h1, h2, h3⟩
      · simp only [sendLoop, hc, if_false] at h
        rcases ih h with ⟨h1, h2, h3⟩
        exact ⟨List.mem_cons_of_mem _ h1, h2, h3⟩

theorem sendLoop_count (fails : ClientId → Bool) (active : List (ClientId × Nat))
    (l : List ClientId) (x : ClientId) :
    (sendLoop fails active l).1.count x ≤ l.count x := by
  induction l with
  | nil => simp [sendLoop]
  | cons cid rest ih =>
      by_cases hc : (alookup active cid).isSome = true
      · by_cases hf : fails cid = true
        · simp only [sendLoop, hc, if_true, hf]
          exact le_trans ih (List.count_le_count_cons x cid rest)
        · simp only [sendLoop, hc, if_true]
          rw [if_neg (by simp [Bool.not_eq_true] at hf; simp [hf])]
          by_cases hx : cid = x
          · subst hx
            simpa [List.count_cons_self] using Nat.add_le_add_right ih 1
          · simpa [List.count_cons_of_ne (Ne.symm hx), List.count_cons_of_ne,
              fun h => hx h] using le_trans ih (le_refl _)
      · simp only [sendLoop, hc, if_false]
        exact le_trans ih (List.count_le_count_cons x cid rest)

theorem sendLoop_all_active (fails : ClientId → Bool)
    (active : List (ClientId × Nat)) (l : List ClientId)
    (h : ∀ x ∈ l, (alookup active x).isSome = true) :
    (sendLoop fails active l).1 = l.filter (fun c => !(fails c)) := by
  induction l with
  | nil => simp [sendLoop]
  | cons cid rest ih =>
      have hc : (alookup active cid).isSome = true := h cid (List.mem_cons_self _ _)
      have hrest := ih fun x hx => h x (List.mem_cons_of_mem _ hx)
      by_cases hf : fails cid = true
      · simp only [sendLoop, hc, if_true, hf, List.filter_cons]
        simpa [hf] using hrest
      · simp only [Bool.not_eq_true] at hf
        simp only [sendLoop, hc, if_true, List.filter_cons]
        rw [if_neg (by simp [hf])]
        simpa [hf] using hrest

/-! ### Subscription-index lemmas -/

theorem subAdd_forall {P : ClientId → Prop} {subs : List (Topic × List ClientId)}
    {t : Topic} {cid : ClientId}
    (hsubs : ∀ p ∈ subs, ∀ x ∈ p.2, P x) (hcid : P cid) :
    ∀ p ∈ subAdd subs t cid, ∀ x ∈ p.2, P x := by
  intro p hp x hx
  rcases mem_aset hp with h | h
  · exact hsubs p h x hx
  · subst h
    rcases mem_of_mem_sadd hx with h' | h'
    · cases hl : alookup subs t with
      | none => rw [hl] at h'; simp at h'
      | some b => rw [hl] at h'; exact hsubs (t, b) (alookup_mem hl) x h'
    · subst h'; exact hcid

theorem subDiscard_forall {P : ClientId → Prop} {subs : List (Topic × List ClientId)}
    {t : Topic} {cid : ClientId}
    (hsubs : ∀ p ∈ subs, ∀ x ∈ p.2, P x) :
    ∀ p ∈ subDiscard subs t cid, ∀ x ∈ p.2, P x := by
  intro p hp x hx
  rcases mem_aset hp with h | h
  · exact hsubs p h x hx
  · subst h
    have h' := mem_of_mem_sdiscard hx
    cases hl : alookup subs t with
    | none => rw [hl] at h'; simp at h'
    | some b => rw [hl] at h'; exact hsubs (t, b) (alookup_mem hl) x h'

theorem foldl_subAdd_forall {P : ClientId → Prop} {cid : ClientId} (hcid : P cid) :
    ∀ (ts : List Topic) (subs : List (Topic × List ClientId)),
      (∀ p ∈ subs, ∀ x ∈ p.2, P x) →
      ∀ p ∈ ts.foldl (fun s t => subAdd s t cid) subs, ∀ x ∈ p.2, P x := by
  intro ts
  induction ts with
  | nil => intro subs hsubs; simpa using hsubs
  | cons t rest ih =>
      intro subs hsubs
      exact ih _ (subAdd_forall hsubs hcid)

theorem foldl_subDiscard_forall {P : ClientId → Prop} {cid : ClientId} :
    ∀ (ts : List Topic) (subs : List (Topic × List ClientId)),
      (∀ p ∈ subs, ∀ x ∈ p.2, P x) →
      ∀ p ∈ ts.foldl (fun s t => subDiscard s t cid) subs, ∀ x ∈ p.2, P x := by
  intro ts
  induction ts with
  | nil => intro subs hsubs; simpa using hsubs
  | cons t rest ih =>
      intro subs hsubs
      exact ih _ (subDiscard_forall hsubs)

theorem subAdd_nodup {subs : List (Topic × List ClientId)} {t : Topic} {cid : ClientId}
    (hsubs : ∀ p ∈ subs, p.2.Nodup) : ∀ p ∈ subAdd subs t cid, p.2.Nodup := by
  intro p hp
  rcases mem_aset hp with h | h
  · exact hsubs p h
  · subst h
    cases hl : alookup subs t with
    | none => simpa [hl] using sadd_nodup List.nodup_nil cid
    | some b => simpa [hl] using sadd_nodup (hsubs (t, b) (alookup_mem hl)) cid

theorem foldl_subAdd_nodup {cid : ClientId} :
    ∀ (ts : List Topic) (subs : List (Topic × List ClientId)),
      (∀ p ∈ subs, p.2.Nodup) →
      ∀ p ∈ ts.foldl (fun s t => subAdd s t cid) subs, p.2.Nodup := by
  intro ts
  induction ts with
  | nil => intro subs hsubs; simpa using hsubs
  | cons t rest ih =>
      intro subs hsubs
      exact ih _ (subAdd_nodup hsubs)

theorem aset_aset_same {α : Type} (l : List (String × α)) (k : String) (v w : α) :
    aset (aset l k v) k w = aset l k w := by
  induction l with
  | nil => simp [aset]
  | cons p rest ih =>
      obtain ⟨k', v'⟩ := p
      by_cases hk : k' = k
      · simp [aset, hk]
      · simp [aset, hk, ih]

theorem aset_lookup_eq {α : Type} {l : List (String × α)} {k : String} {v : α}
    (h : alookup l k = some v) : aset l k v = l := by
  induction l with
  | nil => simp [alookup] at h
  | cons p rest ih =>
      obtain ⟨k', v'⟩ := p
      by_cases hk : k' = k
      · simp [alookup, hk] at h
        simp [aset, hk, h]
      · simp [alookup, hk] at h
        simp [aset, hk, ih h]

theorem subAdd_hasCid_self (subs : List (Topic × List ClientId)) (t : Topic)
    (cid : ClientId) : ∃ b, alookup (subAdd subs t cid) t = some b ∧ cid ∈ b :=
  ⟨_, alookup_aset_self _ _ _, mem_sadd_self _ _⟩

theorem subAdd_hasCid_mono {subs : List (Topic × List ClientId)} {t : Topic}
    {cid : ClientId} (t' : Topic)
    (h : ∃ b, alookup subs t = some b ∧ cid ∈ b) :
    ∃ b, alookup (subAdd subs t' cid) t = some b ∧ cid ∈ b := by
  by_cases ht : t = t'
  · subst ht; exact subAdd_hasCid_self subs t cid
  · rcases h with ⟨b, hb, hcb⟩
    exact ⟨b, by rw [subAdd, alookup_aset_ne _ _ _ _ ht, hb], hcb⟩

theorem subAdd_eq_of_hasCid {subs : List (Topic × List ClientId)} {t : Topic}
    {cid : ClientId} (h : ∃ b, alookup subs t = some b ∧ cid ∈ b) :
    subAdd subs t cid = subs := by
  rcases h with ⟨b, hb, hcb⟩
  rw [subAdd, hb]
  simpa [sadd_of_mem hcb] using aset_lookup_eq hb

theorem foldl_subAdd_hasCid_mono {cid : ClientId} {t : Topic} :
    ∀ (ts : List Topic) (subs : List (Topic × List ClientId)),
      (∃ b, alookup subs t = some b ∧ cid ∈ b) →
      ∃ b, alookup (ts.foldl (fun s t' => subAdd s t' cid) subs) t = some b ∧ cid ∈ b := by
  intro ts
  induction ts with
  | nil => intro subs h; simpa using h
  | cons t' rest ih =>
      intro subs h
      exact ih _ (subAdd_hasCid_mono t' h)

theorem foldl_subAdd_hasCid_all {cid : ClientId} :
    ∀ (ts : List Topic) (subs : List (Topic × List ClientId)), ∀ t ∈ ts,
      ∃ b, alookup (ts.foldl (fun s t' => subAdd s t' cid) subs) t = some b ∧ cid ∈ b := by
  intro ts
  induction ts with
  | nil => intro subs t ht; simp at ht
  | cons t' rest ih =>
      intro subs t ht
      rcases List.mem_cons.mp ht with h | h
      · subst h
        exact foldl_subAdd_hasCid_mono rest _ (subAdd_hasCid_self subs t cid)
      · exact ih _ t h

theorem foldl_subAdd_id {cid : ClientId} :
    ∀ (ts : List Topic) (subs : List (Topic × List ClientId)),
      (∀ t ∈ ts, ∃ b, alookup subs t = some b ∧ cid ∈ b) →
      ts.foldl (fun s t' => subAdd s t' cid) subs = subs := by
  intro ts
  induction ts with
  | nil => intro subs _; rfl
  | cons t rest ih =>
      intro subs h
      have h0 := subAdd_eq_of_hasCid (h t (List.mem_cons_self _ _))
      simp only [List.foldl_cons, h0]
      exact ih _ fun t' ht' => h t' (List.mem_cons_of_mem _ ht')

/-! ### Registry invariant lemmas -/

theorem bucketsRegistered_iff (m : ConnectionManager) :
    bucketsRegistered m = true ↔
      ∀ p ∈ m.subscriptions, ∀ x ∈ p.2,
        (alookup m.active_connections x).isSome = true := by
  simp [bucketsRegistered, List.all_eq_true]

theorem bucketsRegistered_connect (m : ConnectionManager) (ws : Nat)
    (cid : ClientId) (now : Nat) (h : bucketsRegistered m = true) :
    bucketsRegistered (m.connect ws cid now) = true := by
  rw [bucketsRegistered_iff] at h ⊢
  intro p hp x hx
  exact alookup_aset_isSome _ _ _ _ (h p hp x hx)

theorem bucketsRegistered_disconnect (m : ConnectionManager) (cid : ClientId)
    (h : bucketsRegistered m = true) :
    bucketsRegistered (m.disconnect cid) = true := by
  rw [bucketsRegistered_iff] at h ⊢
  by_cases hcd : (alookup m.active_connections cid).isSome = true
  · simp only [ConnectionManager.disconnect, hcd, if_true]
    intro p hp x hx
    rcases List.mem_map.mp hp with ⟨q, hq, rfl⟩
    rw [alookup_aerase_ne _ _ _ (ne_of_mem_sdiscard hx)]
    exact h q hq x (mem_of_mem_sdiscard hx)
  · simp only [Bool.not_eq_true] at hcd
    simp only [ConnectionManager.disconnect, hcd]
    exact h

theorem bucketsRegistered_subscribe (m : ConnectionManager) (cid : ClientId)
    (ts : List Topic) (h : bucketsRegistered m = true)
    (hc : (alookup m.active_connections cid).isSome = true) :
    bucketsRegistered (m.subscribe cid ts) = true := by
  rw [bucketsRegistered_iff] at h ⊢
  exact foldl_subAdd_forall hc ts m.subscriptions h

theorem bucketsRegistered_unsubscribe (m : ConnectionManager) (cid : ClientId)
    (ts : List Topic) (h : bucketsRegistered m = true) :
    bucketsRegistered (m.unsubscribe cid ts) = true := by
  rw [bucketsRegistered_iff] at h ⊢
  exact foldl_subDiscard_forall ts m.subscriptions h

theorem bucketsRegistered_runOps :
    ∀ (ops : List Op) (m : ConnectionManager),
      bucketsRegistered m = true → subscribesRegistered m ops = true →
      bucketsRegistered (runOps m ops) = true := by
  intro ops
  induction ops with
  | nil => intro m hm _; simpa [runOps] using hm
  | cons op rest ih =>
      intro m hm hs
      cases op with
      | register cid ws now =>
          simp only [subscribesRegistered, Bool.and_eq_true] at hs
          exact ih _ (bucketsRegistered_connect m ws cid now hm) hs.2
      | unregister cid =>
          simp only [subscribesRegistered, Bool.and_eq_true] at hs
          exact ih _ (bucketsRegistered_disconnect m cid hm) hs.2
      | subscribe cid topics =>
          simp only [subscribesRegistered, Bool.and_eq_true] at hs
          exact ih _ (bucketsRegistered_subscribe m cid topics hm hs.1) hs.2
      | unsubscribe cid topics =>
          simp only [subscribesRegistered, Bool.and_eq_true] at hs
          exact ih _ (bucketsRegistered_unsubscribe m cid topics hm) hs.2

/-! ### Claim theorems -/

/-- C1: counterexample. The claim says a topic whose bucket is absent behaves
like one whose bucket is empty, delivering to no one. In the code the
fallback branch of `broadcast` sends to ALL connected clients when
`message_type` is not a key of `subscriptions`: session "S" is connected,
subscribed to nothing, yet receives the broadcast on the never-subscribed
topic "T2". -/
theorem C1_counterexample :
    "S" ∈ (ConnectionManager.broadcast (fun _ => false)
        (ConnectionManager.empty.connect 1 "S" 0) (some "T2")).2 := by decide

/-- C1, amended: when the topic HAS a bucket (even an empty one), broadcast
delivers only to bucket members, so a session not in the bucket never
receives the message; but when the topic has NO bucket, broadcast falls back
to delivering to every connected client whose transport does not fail — an
absent bucket is NOT equivalent to an empty one. -/
theorem C1_amended (m : ConnectionManager) (S : ClientId) (t : Topic)
    (fails : ClientId → Bool) (ht : t ≠ "") :
    (∀ bucket, alookup m.subscriptions t = some bucket → S ∉ bucket →
        S ∉ (ConnectionManager.broadcast fails m (some t)).2)
    ∧ (alookup m.subscriptions t = none →
        (ConnectionManager.broadcast fails m (some t)).2
          = (m.active_connections.map Prod.fst).filter (fun c => !(fails c))) := by
  constructor
  · intro bucket hb hS hmem
    have hmem' : S ∈ (sendLoop fails m.active_connections
        (broadcastRecipients m (some t))).1 := hmem
    rw [show broadcastRecipients m (some t) = bucket by
      simp [broadcastRecipients, ht, hb]] at hmem'
    exact hS (sendLoop_delivered_mem hmem').1
  · intro hnone
    show (sendLoop fails m.active_connections (broadcastRecipients m (some t))).1 = _
    rw [show broadcastRecipients m (some t) = m.active_connections.map Prod.fst by
      simp [broadcastRecipients, ht, hnone]]
    exact sendLoop_all_active _ _ _ fun x hx => alookup_isSome_of_mem_keys hx

/-- Witness for C1_amended: in a registry where only "A" subscribed to "t",
the unsubscribed connected session "S" does not receive a broadcast on "t". -/
theorem C1_amended_witness :
    "S" ∉ (ConnectionManager.broadcast (fun _ => false)
      (((ConnectionManager.empty.connect 1 "A" 0).connect 2 "S" 0).subscribe
        "A" ["t"]) (some "t")).2 :=
  (C1_amended (((ConnectionManager.empty.connect 1 "A" 0).connect 2 "S" 0).subscribe
      "A" ["t"]) "S" "t" (fun _ => false) (by decide)).1 ["A"] (by decide) (by decide)

/-- C2: counterexample. The claim says milestone detection is edge-triggered
and the revenue sequence [24000, 26000, 26500, 51000] fires exactly two
broadcasts. The code's test `revenue >= m and revenue < m * 1.1` re-fires
while revenue stays inside the 10% window: the sequence fires THREE
broadcasts — 25000 at tick 2, 25000 AGAIN at tick 3, and 50000 at tick 4. -/
theorem C2_counterexample :
    monitor_business_metrics [24000, 26000, 26500, 51000]
      = [25000, 25000, 50000] := by decide

/-- C2, amended: milestone detection is level-triggered within a 10% window —
on each tick the first milestone m with m ≤ revenue < 1.1·m fires (at most
one per tick, because of the `break`), so a milestone re-fires on every
consecutive tick whose revenue stays in its window (25000 fires at both
26000 and 26500), and nothing fires when revenue is above every milestone's
window (60000). The given sequence fires three broadcasts, not two. -/
theorem C2_amended :
    monitor_business_metrics [24000, 26000, 26500, 51000] = [25000, 25000, 50000]
    ∧ monitor_tick 24000 = none
    ∧ monitor_tick 26000 = some 25000
    ∧ monitor_tick 26500 = some 25000
    ∧ monitor_tick 51000 = some 50000
    ∧ monitor_tick 60000 = none := by decide

/-- C3: counterexample. The claim says a provider failure on tick 2 makes the
pump skip that tick, delivering exactly two `metrics` messages. In the code
`get_live_metrics` catches the failure itself and returns the empty dict, so
the pump still sends a `metrics` message (with empty data) on the failed
tick: three `metrics` messages are delivered, the second with empty data. -/
theorem C3_counterexample :
    ((send_metrics_updates (fun _ => false)
        [some ⟨3, 1000, 2, 1, 100⟩, none, some ⟨3, 1000, 2, 1, 100⟩]
        (ConnectionManager.empty.connect 1 "S" 0) "S").2.map Msg.type
      = ["metrics", "metrics", "metrics"])
    ∧ ((send_metrics_updates (fun _ => false)
        [some ⟨3, 1000, 2, 1, 100⟩, none, some ⟨3, 1000, 2, 1, 100⟩]
        (ConnectionManager.empty.connect 1 "S" 0) "S").2[1]?
      = some ⟨"metrics", []⟩) := by decide

/-- C3, amended: with a healthy transport, the pump for a connected session
delivers one `metrics` message per tick regardless of provider failures —
a failed tick is not skipped but yields a message with empty data (the
provider error is swallowed inside `get_live_metrics`) — and the pump keeps
running: the registry state is untouched and every subsequent tick is
processed. -/
theorem C3_amended (m : ConnectionManager) (cid : ClientId)
    (ticks : List (Option LiveRow))
    (h : (alookup m.active_connections cid).isSome = true) :
    send_metrics_updates (fun _ => false) ticks m cid
      = (m, ticks.map fun r => ⟨"metrics", get_live_metrics r⟩) := by
  induction ticks with
  | nil => simp [send_metrics_updates]
  | cons r rest ih =>
      simp [send_metrics_updates, ConnectionManager.send_personal_message, h, ih]

/-- Witness for C3_amended: a success tick followed by a provider-failure
tick yields two `metrics` messages, the second with empty data. -/
theorem C3_amended_witness :
    send_metrics_updates (fun _ => false) [some ⟨3, 1000, 2, 1, 100⟩, none]
        (ConnectionManager.empty.connect 1 "S" 0) "S"
      = (ConnectionManager.empty.connect 1 "S" 0,
         [⟨"metrics", get_live_metrics (some ⟨3, 1000, 2, 1, 100⟩)⟩,
          ⟨"metrics", []⟩]) := by
  have h := C3_amended (ConnectionManager.empty.connect 1 "S" 0) "S"
    [some ⟨3, 1000, 2, 1, 100⟩, none] (by decide)
  simpa using h

/-- C4: counterexample. The claim says that after EVERY operation sequence
no topic bucket holds an unregistered id. `subscribe` does not check
registration, so the one-operation sequence `subscribe "x" ["t"]` on the
empty registry leaves the never-registered id "x" in bucket "t". -/
theorem C4_counterexample :
    bucketsRegistered (runOps ConnectionManager.empty [Op.subscribe "x" ["t"]]) = false
    ∧ "x" ∈ (alookup (runOps ConnectionManager.empty
        [Op.subscribe "x" ["t"]]).subscriptions "t").getD []
    ∧ alookup (runOps ConnectionManager.empty
        [Op.subscribe "x" ["t"]]).active_connections "x" = none := by decide

/-- C4, amended: the no-orphan half of the invariant holds only for
sequences whose `subscribe` calls always target an id registered at the
moment of the call — then after the run every id in any topic bucket is a
registered session. (The converse direction, "a registered session is in
exactly the buckets of its subscribed topics", is not expressible: sessions
in the code carry no subscription set of their own; the buckets ARE the only
subscription state.) -/
theorem C4_amended (ops : List Op)
    (h : subscribesRegistered ConnectionManager.empty ops = true) :
    bucketsRegistered (runOps ConnectionManager.empty ops) = true :=
  bucketsRegistered_runOps ops ConnectionManager.empty (by decide) h

/-- Witness for C4_amended: a run that registers, subscribes, unregisters and
unsubscribes — with every subscribe aimed at a live session — ends with a
consistent index. -/
theorem C4_amended_witness :
    bucketsRegistered (runOps ConnectionManager.empty
      [Op.register "a" 1 0, Op.subscribe "a" ["t"], Op.register "b" 2 1,
       Op.subscribe "b" ["t", "u"], Op.unregister "a",
       Op.unsubscribe "b" ["t"]]) = true :=
  C4_amended
    [Op.register "a" 1 0, Op.subscribe "a" ["t"], Op.register "b" 2 1,
     Op.subscribe "b" ["t", "u"], Op.unregister "a",
     Op.unsubscribe "b" ["t"]] (by decide)

/-- C6: counterexample. The claim says registering an already-registered id
fails with DuplicateId and never silently replaces the session. `connect` is
a bare dict assignment: connecting "a" twice raises nothing and replaces
transport 1 and its metadata with transport 2's. -/
theorem C6_counterexample :
    ((ConnectionManager.empty.connect 1 "a" 0).connect 2 "a" 5).active_connections
      = [("a", 2)]
    ∧ ((ConnectionManager.empty.connect 1 "a" 0).connect 2 "a" 5).connection_metadata
      = [("a", 5)] := by decide

/-- C6, amended: `connect` never fails; connecting an id that is already
registered silently replaces the stored transport and metadata with the new
ones. -/
theorem C6_amended (m : ConnectionManager) (ws ws2 now now2 : Nat)
    (cid : ClientId) :
    alookup ((m.connect ws cid now).connect ws2 cid now2).active_connections cid
      = some ws2
    ∧ alookup ((m.connect ws cid now).connect ws2 cid now2).connection_metadata cid
      = some now2 := by
  exact ⟨alookup_aset_self _ _ _, alookup_aset_self _ _ _⟩

/-- C7: counterexample. The claim says subscribe/unsubscribe on an
unregistered id fail with UnknownSession and add nothing to any bucket.
`subscribe` performs no registration check: on the empty registry it happily
files the unknown id "x" under topic "t". -/
theorem C7_counterexample :
    (ConnectionManager.empty.subscribe "x" ["t"]).subscriptions = [("t", ["x"])]
    ∧ alookup ConnectionManager.empty.active_connections "x" = none := by decide

/-- C7, amended: subscribe and unsubscribe never fail, registered id or not.
For an unregistered id, subscribe adds it to the topic's bucket (creating
the bucket if needed), unsubscribe removes it — while still creating an
empty bucket for a never-seen topic, because the defaultdict index creates
on access — and neither touches the session map or the metadata. -/
theorem C7_amended (m : ConnectionManager) (cid : ClientId) (t : Topic)
    (_h : alookup m.active_connections cid = none) :
    cid ∈ (alookup (m.subscribe cid [t]).subscriptions t).getD []
    ∧ (alookup (m.unsubscribe cid [t]).subscriptions t).isSome = true
    ∧ cid ∉ (alookup (m.unsubscribe cid [t]).subscriptions t).getD []
    ∧ (m.subscribe cid [t]).active_connections = m.active_connections
    ∧ (m.subscribe cid [t]).connection_metadata = m.connection_metadata := by
  refine ⟨?_, ?_, ?_, rfl, rfl⟩
  · show cid ∈ (alookup (subAdd m.subscriptions t cid) t).getD []
    rw [subAdd, alookup_aset_self]
    simpa using mem_sadd_self _ _
  · show (alookup (subDiscard m.subscriptions t cid) t).isSome = true
    rw [subDiscard, alookup_aset_self]
    rfl
  · show cid ∉ (alookup (subDiscard m.subscriptions t cid) t).getD []
    rw [subDiscard, alookup_aset_self]
    simpa using not_mem_sdiscard _ _

/-- Witness for C7_amended: the never-registered "x" lands in bucket "t". -/
theorem C7_amended_witness :
    "x" ∈ (alookup ((ConnectionManager.empty.connect 1 "S" 0).subscribe
      "x" ["t"]).subscriptions "t").getD [] :=
  (C7_amended (ConnectionManager.empty.connect 1 "S" 0) "x" "t" (by decide)).1

/-- C5: confirmed. When topic t's bucket is exactly {S, S2}, S's transport
fails and S2's works, the broadcast still delivers to S2 (the per-recipient
`try/except` is modelled by branching on the failure oracle, so the failure
never escapes `broadcast`, which is a total function), and afterwards S is
removed from the connection map and purged from the topic's bucket. -/
theorem C5 (m : ConnectionManager) (S S2 : ClientId) (t : Topic)
    (fails : ClientId → Bool) (ht : t ≠ "")
    (hbucket : alookup m.subscriptions t = some [S, S2])
    (hS : (alookup m.active_connections S).isSome = true)
    (hS2 : (alookup m.active_connections S2).isSome = true)
    (hfS : fails S = true) (hfS2 : fails S2 = false) (hne : S ≠ S2) :
    S2 ∈ (ConnectionManager.broadcast fails m (some t)).2
    ∧ S ∉ (ConnectionManager.broadcast fails m (some t)).2
    ∧ alookup (ConnectionManager.broadcast fails m (some t)).1.active_connections S
        = none
    ∧ S ∉ (alookup (ConnectionManager.broadcast fails m
        (some t)).1.subscriptions t).getD [] := by
  have hrec : broadcastRecipients m (some t) = [S, S2] := by
    simp [broadcastRecipients, ht, hbucket]
  have hloop : sendLoop fails m.active_connections [S, S2] = ([S2], [S]) := by
    simp [sendLoop, hS, hS2, hfS, hfS2]
  have h2 : (ConnectionManager.broadcast fails m (some t)).2 = [S2] := by
    show (sendLoop fails m.active_connections (broadcastRecipients m (some t))).1 = _
    rw [hrec, hloop]
  have h1 : (ConnectionManager.broadcast fails m (some t)).1 = m.disconnect S := by
    show ((sendLoop fails m.active_connections
        (broadcastRecipients m (some t))).2).foldl ConnectionManager.disconnect m = _
    rw [hrec, hloop]
    rfl
  refine ⟨by rw [h2]; exact List.mem_singleton.mpr rfl,
          by rw [h2]; simp [hne], ?_, ?_⟩
  · rw [h1]
    simp [ConnectionManager.disconnect, hS, alookup_aerase_self]
  · rw [h1]
    have hsubs : (m.disconnect S).subscriptions
        = m.subscriptions.map (fun p => (p.1, sdiscard p.2 S)) := by
      simp [ConnectionManager.disconnect, hS]
    rw [hsubs, alookup_map_sdiscard, hbucket]
    simpa using not_mem_sdiscard [S, S2] S

/-- Witness for C5: a concrete two-session registry where sending to "S"
raises; "S2" still receives and "S" is evicted. -/
theorem C5_witness :
    "S2" ∈ (ConnectionManager.broadcast (fun c => c == "S")
      ((((ConnectionManager.empty.connect 1 "S" 0).connect 2 "S2" 0).subscribe
        "S" ["t"]).subscribe "S2" ["t"]) (some "t")).2
    ∧ alookup (ConnectionManager.broadcast (fun c => c == "S")
      ((((ConnectionManager.empty.connect 1 "S" 0).connect 2 "S2" 0).subscribe
        "S" ["t"]).subscribe "S2" ["t"]) (some "t")).1.active_connections "S"
      = none := by
  have h := C5 ((((ConnectionManager.empty.connect 1 "S" 0).connect 2 "S2" 0).subscribe
      "S" ["t"]).subscribe "S2" ["t"]) "S" "S2" "t" (fun c => c == "S")
    (by decide) (by decide) (by decide) (by decide) (by decide) (by decide) (by decide)
  exact ⟨h.1, h.2.2.1⟩

/-- C8: confirmed. `disconnect` of an unregistered id is a no-op on the whole
state; `disconnect` is idempotent; and disconnecting a registered id removes
it from the connection map, the metadata, and every topic bucket. -/
theorem C8 (m : ConnectionManager) (cid : ClientId) :
    (alookup m.active_connections cid = none → m.disconnect cid = m)
    ∧ (m.disconnect cid).disconnect cid = m.disconnect cid
    ∧ ((alookup m.active_connections cid).isSome = true →
        alookup (m.disconnect cid).active_connections cid = none
        ∧ alookup (m.disconnect cid).connection_metadata cid = none
        ∧ ∀ t, cid ∉ (alookup (m.disconnect cid).subscriptions t).getD []) := by
  have noop : ∀ (m' : ConnectionManager),
      alookup m'.active_connections cid = none → m'.disconnect cid = m' := by
    intro m' h'
    simp [ConnectionManager.disconnect, h']
  refine ⟨noop m, ?_, ?_⟩
  · cases hc : alookup m.active_connections cid with
    | none => rw [noop m hc]; exact noop m hc
    | some ws =>
        have h : (alookup m.active_connections cid).isSome = true := by
          rw [hc]; rfl
        have h2 : alookup (m.disconnect cid).active_connections cid = none := by
          simp [ConnectionManager.disconnect, h, alookup_aerase_self]
        exact noop _ h2
  · intro h
    refine ⟨?_, ?_, ?_⟩
    · simp [ConnectionManager.disconnect, h, alookup_aerase_self]
    · simp [ConnectionManager.disconnect, h, alookup_aerase_self]
    · intro t
      have hsubs : (m.disconnect cid).subscriptions
          = m.subscriptions.map (fun p => (p.1, sdiscard p.2 cid)) := by
        simp [ConnectionManager.disconnect, h]
      rw [hsubs, alookup_map_sdiscard]
      cases alookup m.subscriptions t with
      | none => simp
      | some b => simpa using not_mem_sdiscard b cid

/-- Witness for C8: disconnecting from the empty registry changes nothing;
disconnecting a registered, subscribed "a" purges it from bucket "t". -/
theorem C8_witness :
    ConnectionManager.empty.disconnect "a" = ConnectionManager.empty
    ∧ "a" ∉ (alookup (((ConnectionManager.empty.connect 1 "a" 0).subscribe
        "a" ["t"]).disconnect "a").subscriptions "t").getD [] := by
  refine ⟨(C8 ConnectionManager.empty "a").1 (by decide), ?_⟩
  exact (((C8 ((ConnectionManager.empty.connect 1 "a" 0).subscribe "a" ["t"])
    "a").2.2 (by decide)).2.2) "t"

/-- C9: confirmed. `send_personal_message` for an id absent from the
connection map returns without sending and leaves the whole state unchanged,
and a broadcast never delivers to an id that is not an active connection —
stale bucket entries are skipped. -/
theorem C9 (m : ConnectionManager) (cid : ClientId) (fails : ClientId → Bool)
    (h : alookup m.active_connections cid = none) :
    ConnectionManager.send_personal_message fails m cid = (m, false)
    ∧ ∀ mt, cid ∉ (ConnectionManager.broadcast fails m mt).2 := by
  constructor
  · simp [ConnectionManager.send_personal_message, h]
  · intro mt hmem
    have hmem' : cid ∈ (sendLoop fails m.active_connections
        (broadcastRecipients m mt)).1 := hmem
    have hsome := (sendLoop_delivered_mem hmem').2.1
    rw [h] at hsome
    simp at hsome

/-- Witness for C9: "ghost" sits in bucket "t" but is not connected; sending
to it is a no-op and the broadcast on "t" skips it. -/
theorem C9_witness :
    ConnectionManager.send_personal_message (fun _ => false)
      ((ConnectionManager.empty.connect 1 "S" 0).subscribe "ghost" ["t"]) "ghost"
      = ((ConnectionManager.empty.connect 1 "S" 0).subscribe "ghost" ["t"], false)
    ∧ "ghost" ∉ (ConnectionManager.broadcast (fun _ => false)
      ((ConnectionManager.empty.connect 1 "S" 0).subscribe "ghost" ["t"])
      (some "t")).2 := by
  have h := C9 ((ConnectionManager.empty.connect 1 "S" 0).subscribe "ghost" ["t"])
    "ghost" (fun _ => false) (by decide)
  exact ⟨h.1, h.2 (some "t")⟩

/-- C10: confirmed. On a registry whose buckets and connection keys are
duplicate-free (which all reachable states are), subscribing the same client
to the same topic list twice leaves the state exactly as subscribing once,
and any single broadcast afterwards delivers at most one copy per client id. -/
theorem C10 (m : ConnectionManager) (cid : ClientId) (ts : List Topic)
    (fails : ClientId → Bool)
    (hb : ∀ p ∈ m.subscriptions, p.2.Nodup)
    (ha : (m.active_connections.map Prod.fst).Nodup) :
    (m.subscribe cid ts).subscribe cid ts = m.subscribe cid ts
    ∧ ∀ (mt : Option Topic) (x : ClientId),
        (ConnectionManager.broadcast fails (m.subscribe cid ts) mt).2.count x ≤ 1 := by
  constructor
  · show ConnectionManager.mk _ _ _ = ConnectionManager.mk _ _ _
    congr 1
    exact foldl_subAdd_id ts _ (foldl_subAdd_hasCid_all ts m.subscriptions)
  · intro mt x
    have hb' : ∀ p ∈ (m.subscribe cid ts).subscriptions, p.2.Nodup :=
      foldl_subAdd_nodup ts m.subscriptions hb
    have hrec : (broadcastRecipients (m.subscribe cid ts) mt).Nodup := by
      cases mt with
      | none => exact ha
      | some t =>
          by_cases ht : t = ""
          · simpa [broadcastRecipients, ht] using ha
          · cases hl : alookup (m.subscribe cid ts).subscriptions t with
            | none => simpa [broadcastRecipients, ht, hl] using ha
            | some b =>
                have hbn : b.Nodup := hb' (t, b) (alookup_mem hl)
                simpa [broadcastRecipients, ht, hl] using hbn
    have hcount : (ConnectionManager.broadcast fails (m.subscribe cid ts) mt).2.count x
        ≤ (broadcastRecipients (m.subscribe cid ts) mt).count x :=
      sendLoop_count _ _ _ _
    exact le_trans hcount (List.nodup_iff_count_le_one.mp hrec x)

/-- Witness for C10: double-subscribing "a" to ["t","u"] equals subscribing
once, and the broadcast on "t" delivers at most one copy to "a". -/
theorem C10_witness :
    ((ConnectionManager.empty.connect 1 "a" 0).subscribe "a" ["t", "u"]).subscribe
        "a" ["t", "u"]
      = (ConnectionManager.empty.connect 1 "a" 0).subscribe "a" ["t", "u"]
    ∧ (ConnectionManager.broadcast (fun _ => false)
        ((ConnectionManager.empty.connect 1 "a" 0).subscribe "a" ["t", "u"])
        (some "t")).2.count "a" ≤ 1 := by
  have h := C10 (ConnectionManager.empty.connect 1 "a" 0) "a" ["t", "u"]
    (fun _ => false) (by decide) (by decide)
  exact ⟨h.1, h.2 (some "t") "a"⟩

end Websocket
